import Mathlib

/-!
# Verification of the rapidcheck generator core (`rapidcheck/gen/Generator.hpp`)

This file gives a shallow embedding, in Lean 4, of the generator combinators of
`src/include/rapidcheck/gen/Generator.hpp` and proves the specification claims
about them.

Modelling decisions:

* The dynamically-scoped generation context (`param::Size`, `param::NoShrink`)
  becomes an explicit `GenCtx` record passed to `generate`; an `ImplicitParam`
  `let` that overrides a parameter for the duration of an inner draw becomes
  passing a modified copy of the record to that inner draw (restoration on
  scope exit is automatic because the caller keeps its own record).
* The random engine (`param::RandomEngine`, not under `src/`) is modelled from
  the spec as a deterministic stream of 64-bit words: a function from positions
  to `Nat`, together with the current position; `next` reads one word
  (mod `2 ^ 64`) and advances.
* `generate` can raise `GenerationFailure`; this is modelled with
  `Except GenFailure`, carrying the message string.
* The C++ `int` size parameter is modelled as `Int`.
* Shrink iterators (finite, lazy, forward-only sequences) are modelled as Lean
  lists.  The shrink combinators themselves (`shrink::nothing`,
  `shrink::constant`, `shrink::map`, `shrink::sequentially`,
  `shrink::eachElement`, `shrink::removeChunks`) are declared in headers that
  are not under `src/`, so they are modelled from the spec (section 4.3); the
  definitions below carry doc comments saying so.
* The tag dispatch on `detail::IsCopyConstructible<T>` in the `shrink` members
  of `Vector`, `Collection` and `TupleOf` is modelled by a `Bool` parameter
  `copyable` of the corresponding embedded generator.
-/

namespace RapidCheck

/-- The generation context: the dynamically scoped parameters `param::Size`
(C++ `int`, modelled as `Int`) and `param::NoShrink` read during a draw.
The current-rose-node parameter is always null on the `generate` paths
verified here (`Generator<T>::generate` itself never touches it). -/
structure GenCtx where
  size : Int
  noShrink : Bool
deriving Repr

/-- Modelled from the spec: the random source (`param::RandomEngine`, whose
implementation is not under `src/`) is a deterministic stream of words.
`stream` gives the word at each position, `pos` is the next position to read. -/
structure RandState where
  stream : Nat → Nat
  pos : Nat

/-- Read one 64-bit word from the stream and advance. -/
def RandState.next (r : RandState) : Nat × RandState :=
  (r.stream r.pos % 2 ^ 64, ⟨r.stream, r.pos + 1⟩)

/-- `GenerationFailure`: the error a generator throws when it cannot produce a
value (carries the diagnostic message). -/
inductive GenFailure : Type where
  | mk : String → GenFailure
deriving Repr, DecidableEq

/-- Result of running `generate`: either a value together with the advanced
random stream, or a thrown `GenerationFailure`. -/
abbrev GenResult (α : Type) := Except GenFailure (α × RandState)

/-- `gen::Generator<T>`: `generate()` draws a value in the current context;
`shrink(v)` returns the candidate smaller values.  The default `shrink` is
`shrink::nothing<T>()`, the empty sequence (Generator.hpp lines 52-56). -/
structure Generator (α : Type) where
  generate : GenCtx → RandState → GenResult α
  shrink : α → List α := fun _ => []

/-- `kNominalSize`: the nominal default size (the spec names 100). -/
def kNominalSize : Int := 100

/-- `gen::Resize` (Generator.hpp lines 116-137): overrides the size parameter
to `m_size` for the inner draw; `shrink` delegates to the inner generator. -/
def resizeGen (sz : Int) (g : Generator α) : Generator α where
  generate := fun ctx r => g.generate { ctx with size := sz } r
  shrink := g.shrink

/-- `gen::NoShrink` (Generator.hpp lines 428-442): sets `param::NoShrink` to
`true` for the duration of the inner draw; it does not override `shrink`, so it
keeps the empty default of `Generator`. -/
def noShrinkGen (g : Generator α) : Generator α where
  generate := fun ctx r => g.generate { ctx with noShrink := true } r

/-- `gen::Constant` (Generator.hpp lines 414-423): always returns the stored
value; default (empty) shrink. -/
def constantGen (v : α) : Generator α where
  generate := fun _ r => Except.ok (v, r)

/-- Modelled from the spec: `arbitrary<Uint>` for the unsigned integer type
used by `Ranged::generate` (`Arbitrary.hpp` is not under `src/`; the spec
leaves `arbitrary` as the type-indexed default generator).  The natural model
for an unsigned word is one draw from the random stream. -/
def arbitraryUIntGen : Generator Nat where
  generate := fun _ r => Except.ok r.next

/-- `gen::Ranged` (Generator.hpp lines 88-114): throws on an invalid range
(`m_max < m_min`), returns `m_max` when the range is a single point, and
otherwise returns `m_min + value % (m_max - m_min)` where `value` is drawn by
`*noShrink(resize(kNominalSize, arbitrary<Uint>()))`. -/
def rangedGen (lo hi : Int) : Generator Int where
  generate := fun ctx r =>
    if hi < lo then
      Except.error (GenFailure.mk
        ("Invalid range [" ++ toString lo ++ ", " ++ toString hi ++ ")"))
    else if hi = lo then
      Except.ok (hi, r)
    else
      match (noShrinkGen (resizeGen kNominalSize arbitraryUIntGen)).generate ctx r with
      | Except.ok (v, r1) => Except.ok (lo + (v : Int) % (hi - lo), r1)
      | Except.error e => Except.error e

/-- The C++ conversion from `double` to an integer type: truncation toward
zero.  The scale factor of `gen::Scale` is modelled as a rational. -/
def cppTruncToInt (q : ℚ) : Int := if 0 ≤ q then ⌊q⌋ else -⌊-q⌋

/-- `gen::Scale` (Generator.hpp lines 140-161): `generate` overrides the size
parameter with `*size * m_scale` — a `double` product stored back into the
integer size parameter, hence truncated toward zero — and `shrink` delegates
to the inner generator. -/
def scaleGen (k : ℚ) (g : Generator α) : Generator α where
  generate := fun ctx r =>
    g.generate { ctx with size := cppTruncToInt ((ctx.size : ℚ) * k) } r
  shrink := g.shrink

/-- The give-up message of `SuchThat::generate` (Generator.hpp line 77). -/
def gaveUpMsg : String := "Gave up trying to generate value satisfying predicate"

/-- The retry loop of `SuchThat::generate` (Generator.hpp lines 66-80): draw
`*noShrink(resize(size, m_generator))`; return the value if the predicate
accepts it; otherwise increment `size` and retry, throwing once
`size - startSize` exceeds 100.  `fuel` is the number of increments still
allowed, so the loop is entered with `fuel = 100`. -/
def suchThatLoop (g : Generator α) (pred : α → Bool) (ctx : GenCtx) :
    Nat → Int → RandState → GenResult α
  | fuel, sz, r =>
    match (noShrinkGen (resizeGen sz g)).generate ctx r with
    | Except.error e => Except.error e
    | Except.ok (x, r1) =>
      if pred x then Except.ok (x, r1)
      else
        match fuel with
        | 0 => Except.error (GenFailure.mk gaveUpMsg)
        | fuel' + 1 => suchThatLoop g pred ctx fuel' (sz + 1) r1

/-- `gen::SuchThat` (Generator.hpp lines 58-85): the retry loop started at
`startSize = currentSize()`; default (empty) shrink. -/
def suchThatGen (g : Generator α) (pred : α → Bool) : Generator α where
  generate := fun ctx r => suchThatLoop g pred ctx 100 ctx.size r

/-- A generator returning the current size: an instance of the source's
`gen::Lambda` with a callable that reads `gen::currentSize()`.  Used as a
concrete inner generator to observe the size at which a draw happens. -/
def sizeGen : Generator Int where
  generate := fun ctx r => Except.ok (ctx.size, r)

/-- Modelled from the spec: the seeded random engine constructed by
`gen::sample` (`RandomEngine(seed)`; its implementation is not under `src/`,
the spec requires only that it is deterministic in the seed). -/
def mkEngine (seed : Nat) : RandState :=
  ⟨fun i => (seed + (i + 1) * 2654435769) % 2 ^ 64, 0⟩

/-- `gen::sample` (Generator.hpp lines 36-50): installs the size parameter and
a fresh `RandomEngine(seed)`, then draws `generator()` (top-level, so
`Generator::generate` runs directly) and shows the value.  Modelled as
returning the value that is shown. -/
def sample (sz : Int) (g : Generator α) (seed : Nat) : Except GenFailure α :=
  (g.generate ⟨sz, false⟩ (mkEngine seed)).map Prod.fst

/-- The all-zero random stream, a convenient concrete `RandState`. -/
def rZero : RandState := ⟨fun _ => 0, 0⟩

/-- Modelled from the spec (section 4.3): `shrink::sequentially(a, b)` yields
all of `a`, then all of `b` (the shrink headers are not under `src/`). -/
def sequentially (a b : List α) : List α := a ++ b

/-- Modelled from the spec (section 4.3): `shrink::eachElement(xs, per)` —
for each position `i` in order, for each `y` in `per xs[i]`, yield `xs` with
position `i` replaced by `y`; position `i` is exhausted before `i + 1`. -/
def eachElement : List α → (α → List α) → List (List α)
  | [], _ => []
  | x :: xs, per =>
    (per x).map (fun y => y :: xs) ++ (eachElement xs per).map (fun ys => x :: ys)

/-- Remove the contiguous chunk of `len` elements starting at `start`. -/
def removeChunk (xs : List α) (start len : Nat) : List α :=
  xs.take start ++ xs.drop (start + len)

/-- All results of removing one contiguous chunk of length `len` from `xs`. -/
def removeChunksOfLen (xs : List α) (len : Nat) : List (List α) :=
  (List.range (xs.length - len + 1)).map (fun start => removeChunk xs start len)

/-- Modelled from the spec (section 4.3): `shrink::removeChunks(xs)` yields
progressively smaller subsequences of `xs` by removing contiguous chunks,
larger removals first, down to every single-element removal. -/
def removeChunks (xs : List α) : List (List α) :=
  ((List.range xs.length).map (fun i => xs.length - i)).flatMap (removeChunksOfLen xs)

/-- The element-drawing loop shared by `Collection::generate` (Generator.hpp
lines 319-327) and its `std::array` specialization (lines 367-373): `n` draws
of `*noShrink(m_generator)`, collected in draw order.  The container is
modelled as a list, whose `CollectionBuilder::add` always succeeds. -/
def drawElems (g : Generator α) (ctx : GenCtx) : Nat → RandState → GenResult (List α)
  | 0, r => Except.ok ([], r)
  | n + 1, r =>
    match (noShrinkGen g).generate ctx r with
    | Except.error e => Except.error e
    | Except.ok (x, r1) =>
      match drawElems g ctx n r1 with
      | Except.error e => Except.error e
      | Except.ok (xs, r2) => Except.ok (x :: xs, r2)

/-- `gen::Collection` (Generator.hpp lines 312-352): `generate` draws a length
with `*ranged<SizeT>(0, currentSize() + 1)` and then that many elements with
`*noShrink(m_generator)`; `shrink` dispatches on
`detail::IsCopyConstructible<Container>` (here the `copyable` flag): when
copy-constructible it is `shrink::sequentially(shrink::removeChunks(value),
shrink::eachElement(value, m_generator.shrink))`, otherwise
`shrink::nothing`. -/
def collectionGen (g : Generator α) (copyable : Bool) : Generator (List α) where
  generate := fun ctx r =>
    match (rangedGen 0 (ctx.size + 1)).generate ctx r with
    | Except.error e => Except.error e
    | Except.ok (len, r1) => drawElems g ctx len.toNat r1
  shrink := fun v =>
    if copyable then sequentially (removeChunks v) (eachElement v g.shrink)
    else []

/-- The `std::array<T, N>` specialization of `gen::Collection` (Generator.hpp
lines 354-396): `generate` fills all `N` slots with `*noShrink(m_generator)`;
`shrink` is `shrink::eachElement` only (no `removeChunks` phase), and
`shrink::nothing` when the array type is not copy-constructible. -/
def arrayCollectionGen (n : Nat) (g : Generator α) (copyable : Bool) :
    Generator (List α) where
  generate := fun ctx r => drawElems g ctx n r
  shrink := fun v =>
    if copyable then eachElement v g.shrink
    else []

/-- `gen::Vector` (Generator.hpp lines 255-310): `generate` draws exactly
`m_size` elements with `*resize(currentSize, noShrink(m_generator))` (the
retry-on-rejected-add loop collapses, since the list builder always accepts);
`shrink` dispatches on `detail::IsCopyConstructible<Container>`: when
copy-constructible it is `shrink::eachElement(value, m_generator.shrink)`,
otherwise `shrink::nothing`. -/
def vectorGen (n : Nat) (g : Generator α) (copyable : Bool) : Generator (List α) where
  generate := fun ctx r => drawElems (resizeGen ctx.size g) ctx n r
  shrink := fun v =>
    if copyable then eachElement v g.shrink
    else []

/-- The bodies of the fall-through `switch` of `Character::shrink`
(Generator.hpp lines 474-502), beginning at `case 'a'` (which does nothing):
entering at a given case inserts that case's character at the front of the
accumulated vector and falls through to the next case. -/
def charCaseLa (chars : List Char) : List Char := chars

/-- Fall-through body entered at `case 'b'`: inserts `'a'` at the front. -/
def charCaseLb (chars : List Char) : List Char := charCaseLa ('a' :: chars)

/-- Fall-through body entered at `case 'c'`: inserts `'b'` at the front. -/
def charCaseLc (chars : List Char) : List Char := charCaseLb ('b' :: chars)

/-- Fall-through body entered at `case 'A'`: inserts `'c'` at the front. -/
def charCaseUA (chars : List Char) : List Char := charCaseLc ('c' :: chars)

/-- Fall-through body entered at `case 'B'`: inserts `'A'` at the front. -/
def charCaseUB (chars : List Char) : List Char := charCaseUA ('A' :: chars)

/-- Fall-through body entered at `case 'C'`: inserts `'B'` at the front. -/
def charCaseUC (chars : List Char) : List Char := charCaseUB ('B' :: chars)

/-- Fall-through body entered at `case '1'`: inserts `'C'` at the front. -/
def charCaseD1 (chars : List Char) : List Char := charCaseUC ('C' :: chars)

/-- Fall-through body entered at `case '2'`: inserts `'1'` at the front. -/
def charCaseD2 (chars : List Char) : List Char := charCaseD1 ('1' :: chars)

/-- Fall-through body entered at `case '3'`: inserts `'2'` at the front. -/
def charCaseD3 (chars : List Char) : List Char := charCaseD2 ('2' :: chars)

/-- Fall-through body entered at `default`: inserts `'3'` at the front. -/
def charCaseDefault (chars : List Char) : List Char := charCaseD3 ('3' :: chars)

/-- `Character::shrink` (Generator.hpp lines 474-502): the `switch` dispatch on
the input value, starting the fall-through chain at the matching case (or at
`default`), with `chars` initially empty.  `T` is instantiated at `Char`. -/
def characterShrink (value : Char) : List Char :=
  if value = '3' then charCaseD3 []
  else if value = '2' then charCaseD2 []
  else if value = '1' then charCaseD1 []
  else if value = 'C' then charCaseUC []
  else if value = 'B' then charCaseUB []
  else if value = 'A' then charCaseUA []
  else if value = 'c' then charCaseLc []
  else if value = 'b' then charCaseLb []
  else if value = 'a' then charCaseLa []
  else charCaseDefault []

/-- The canonical character list `'a','b','c','A','B','C','1','2','3'` of the
`Character` shrinker, in the canonical order. -/
def canonicalChars : List Char := ['a', 'b', 'c', 'A', 'B', 'C', '1', '2', '3']

/-- The position of a character in the canonical order
`a < b < c < A < B < C < 1 < 2 < 3` (characters outside the canonical list
rank after all of it). -/
def canonIdx (c : Char) : Nat :=
  if c = 'a' then 0
  else if c = 'b' then 1
  else if c = 'c' then 2
  else if c = 'A' then 3
  else if c = 'B' then 4
  else if c = 'C' then 5
  else if c = '1' then 6
  else if c = '2' then 7
  else if c = '3' then 8
  else 9

/-- `TupleOf<Gen, Gens...>::generate` (Generator.hpp lines 564-569, base case
lines 542-547): draw the head, then the tail, and concatenate.  The
heterogeneous `std::tuple` over component types `τ 0, …, τ (n-1)` is modelled
as the dependent function type `∀ i, τ i`. -/
def tupleOfGenerate : {n : Nat} → {τ : Fin n → Type} →
    ((i : Fin n) → Generator (τ i)) → GenCtx → RandState →
    Except GenFailure ((∀ i, τ i) × RandState)
  | 0, _, _, _, r => Except.ok (fun i => i.elim0, r)
  | _ + 1, _, gs, ctx, r =>
    match (gs 0).generate ctx r with
    | Except.error e => Except.error e
    | Except.ok (x, r1) =>
      match tupleOfGenerate (fun i => gs i.succ) ctx r1 with
      | Except.error e => Except.error e
      | Except.ok (rest, r2) => Except.ok (Fin.cons x rest, r2)

/-- The copy-constructible branch of `TupleOf<Gen, Gens...>::shrink`
(Generator.hpp lines 579-597): `shrink::sequentially` of the head's shrinks
mapped by appending the unshrunk tail, and the tail's shrinks mapped by
prepending the unshrunk head.  `TupleOf<>` (lines 542-547) inherits the empty
default shrink. -/
def tupleOfShrink : {n : Nat} → {τ : Fin n → Type} →
    ((i : Fin n) → Generator (τ i)) → (∀ i, τ i) → List (∀ i, τ i)
  | 0, _, _, _ => []
  | _ + 1, _, gs, t =>
    ((gs 0).shrink (t 0)).map (fun y => Fin.cons y (Fin.tail t)) ++
      (tupleOfShrink (fun i => gs i.succ) (Fin.tail t)).map
        (fun rest => Fin.cons (t 0) rest)

/-- `gen::TupleOf` (Generator.hpp lines 539-601): the generator with the
recursive generate and shrink above; `shrink` dispatches on
`detail::IsCopyConstructible<TupleT>` (the `copyable` flag), returning
`shrink::nothing` when the tuple type is not copy-constructible. -/
def tupleOfGen {n : Nat} {τ : Fin n → Type} (gs : (i : Fin n) → Generator (τ i))
    (copyable : Bool) : Generator (∀ i, τ i) where
  generate := tupleOfGenerate gs
  shrink := fun t => if copyable then tupleOfShrink gs t else []

/-- Reference formulation, following the spec's words for `tupleOf` shrinking:
for each component index `i` in increasing order, every candidate replaces
component `i` by one of `gᵢ.shrink (t i)` and keeps all other components of
`t`; index `i` is exhausted before index `i + 1`. -/
def tupleShrinkSpec {n : Nat} {τ : Fin n → Type}
    (gs : (i : Fin n) → Generator (τ i)) (t : ∀ i, τ i) : List (∀ i, τ i) :=
  (List.finRange n).flatMap
    (fun i => ((gs i).shrink (t i)).map (fun y => Function.update t i y))

/-! ## Helper lemmas -/

theorem rangedGen_generate_of_lt {lo hi : Int} (h : lo < hi) (ctx : GenCtx)
    (r : RandState) :
    (rangedGen lo hi).generate ctx r =
      Except.ok (lo + ((r.next.1 : Int) % (hi - lo)), r.next.2) := by
  simp only [rangedGen]
  rw [if_neg (by omega), if_neg (by omega)]
  rfl

theorem suchThatGen_generate {α : Type} (g : Generator α) (pred : α → Bool)
    (ctx : GenCtx) (r : RandState) :
    (suchThatGen g pred).generate ctx r = suchThatLoop g pred ctx 100 ctx.size r :=
  rfl

theorem suchThatGen_generate_mk {α : Type} (g : Generator α) (pred : α → Bool)
    (s : Int) (b : Bool) (r : RandState) :
    (suchThatGen g pred).generate ⟨s, b⟩ r = suchThatLoop g pred ⟨s, b⟩ 100 s r :=
  rfl

theorem suchThatLoop_error_of_false {α : Type} {g : Generator α} {pred : α → Bool}
    (hp : ∀ x, pred x = false) (ctx : GenCtx) :
    ∀ (fuel : Nat) (sz : Int) (r : RandState),
      ∃ e, suchThatLoop g pred ctx fuel sz r = Except.error e := by
  intro fuel
  induction fuel with
  | zero =>
    intro sz r
    rw [suchThatLoop]
    cases hg : (noShrinkGen (resizeGen sz g)).generate ctx r with
    | error e => exact ⟨e, rfl⟩
    | ok p =>
      obtain ⟨x, r1⟩ := p
      exact ⟨GenFailure.mk gaveUpMsg, by simp [hp x]⟩
  | succ f ih =>
    intro sz r
    rw [suchThatLoop]
    cases hg : (noShrinkGen (resizeGen sz g)).generate ctx r with
    | error e => exact ⟨e, rfl⟩
    | ok p =>
      obtain ⟨x, r1⟩ := p
      obtain ⟨e, he⟩ := ih (sz + 1) r1
      exact ⟨e, by simpa [hp x] using he⟩

theorem sizeGen_draw (sz : Int) (ctx : GenCtx) (r : RandState) :
    (noShrinkGen (resizeGen sz sizeGen)).generate ctx r = Except.ok (sz, r) :=
  rfl

theorem suchThatLoop_sizeGen (ctx : GenCtx) :
    ∀ (fuel : Nat) (target sz : Int) (r : RandState),
      suchThatLoop sizeGen (fun n => decide (target ≤ n)) ctx fuel sz r =
        if target ≤ sz then Except.ok (sz, r)
        else if target - sz ≤ (fuel : Int) then Except.ok (target, r)
        else Except.error (GenFailure.mk gaveUpMsg) := by
  intro fuel
  induction fuel with
  | zero =>
    intro target sz r
    rw [suchThatLoop, sizeGen_draw]
    simp only [decide_eq_true_eq]
    by_cases h1 : target ≤ sz
    · rw [if_pos h1, if_pos h1]
    · rw [if_neg h1, if_neg h1, if_neg (by push_cast; omega)]
  | succ f ih =>
    intro target sz r
    rw [suchThatLoop, sizeGen_draw]
    simp only [decide_eq_true_eq]
    by_cases h1 : target ≤ sz
    · rw [if_pos h1, if_pos h1]
    · rw [if_neg h1, if_neg h1, ih]
      by_cases h3 : target ≤ sz + 1
      · rw [if_pos h3, if_pos (by push_cast; omega)]
        have hts : sz + 1 = target := by omega
        rw [hts]
      · rw [if_neg h3]
        by_cases h4 : target - (sz + 1) ≤ (f : Int)
        · rw [if_pos h4, if_pos (by push_cast at h4 ⊢; omega)]
        · rw [if_neg h4, if_neg (by push_cast at h4 ⊢; omega)]

theorem drawElems_length {α : Type} {g : Generator α} {ctx : GenCtx} :
    ∀ (n : Nat) (r : RandState) (xs : List α) (r2 : RandState),
      drawElems g ctx n r = Except.ok (xs, r2) → xs.length = n := by
  intro n
  induction n with
  | zero =>
    intro r xs r2 h
    rw [drawElems] at h
    obtain ⟨rfl, rfl⟩ := by simpa using h
    rfl
  | succ n ih =>
    intro r xs r2 h
    rw [drawElems] at h
    split at h
    · exact absurd h (by simp)
    · split at h
      · exact absurd h (by simp)
      · obtain ⟨rfl, rfl⟩ := by simpa using h
        have hys : _ = n := ih _ _ _ (by assumption)
        simp [hys]

/-! ## Claim theorems -/

/-- C1 (counterexample): the claim says `suchThat` gives up after 100
consecutive rejections.  Here the predicate `100 ≤ n` rejects the first 100
draws (the inner generator returns the current size, so the draws at sizes
0 through 99 are all rejected), yet generation succeeds with the 101st draw:
the loop only gives up after 101 consecutive rejections. -/
theorem suchThat_accepts_after_100_rejections :
    (suchThatGen sizeGen (fun n => decide ((100 : Int) ≤ n))).generate ⟨0, false⟩ rZero =
      Except.ok (100, rZero) := by
  rw [suchThatGen_generate, suchThatLoop_sizeGen]
  norm_num

/-- C1 (amended): `suchThat(g, pred)` draws from `g` with a non-shrinking
inner draw resized to the retry size; each rejection increments the size by 1
and retries; an always-false predicate raises `GenerationFailure`, and the
give-up happens after 101 consecutive rejections (draws at sizes `startSize`
through `startSize + 100`), not 100: a predicate first satisfied at size
`startSize + 100` still succeeds, one first satisfied at `startSize + 101`
fails. -/
theorem suchThatGen_retry_spec :
    (∀ (α : Type) (g : Generator α) (pred : α → Bool) (ctx : GenCtx)
        (r : RandState), (∀ x, pred x = false) →
        ∃ e, (suchThatGen g pred).generate ctx r = Except.error e) ∧
    (∀ (s : Int) (k : Nat) (b : Bool) (r : RandState), k ≤ 100 →
        (suchThatGen sizeGen (fun n => decide (s + (k : Int) ≤ n))).generate
            ⟨s, b⟩ r = Except.ok (s + (k : Int), r)) ∧
    (∀ (s : Int) (b : Bool) (r : RandState),
        (suchThatGen sizeGen (fun n => decide (s + 101 ≤ n))).generate ⟨s, b⟩ r =
          Except.error (GenFailure.mk gaveUpMsg)) := by
  refine ⟨?_, ?_, ?_⟩
  · intro α g pred ctx r hp
    exact suchThatLoop_error_of_false hp ctx 100 ctx.size r
  · intro s k b r hk
    rw [suchThatGen_generate_mk, suchThatLoop_sizeGen]
    by_cases h0 : k = 0
    · subst h0
      rw [if_pos (by norm_num)]
      norm_num
    · rw [if_neg (by omega), if_pos (by push_cast; omega)]
  · intro s b r
    rw [suchThatGen_generate_mk, suchThatLoop_sizeGen]
    rw [if_neg (by omega), if_neg (by push_cast; omega)]

/-- Witness for C1 (amended): the always-false give-up and the
100-rejections-then-accept boundary at concrete inputs. -/
theorem suchThatGen_retry_spec_witness :
    (∃ e, (suchThatGen (constantGen (0 : Int)) (fun _ => false)).generate
        ⟨0, false⟩ rZero = Except.error e) ∧
    (suchThatGen sizeGen (fun n => decide ((0 : Int) + ((5 : Nat) : Int) ≤ n))).generate
        ⟨0, false⟩ rZero = Except.ok ((0 : Int) + ((5 : Nat) : Int), rZero) :=
  ⟨suchThatGen_retry_spec.1 Int (constantGen 0) (fun _ => false) ⟨0, false⟩ rZero
      (fun _ => rfl),
    suchThatGen_retry_spec.2.1 0 5 false rZero (by omega)⟩

/-- C2: every value returned by `ranged(lo, hi).generate()` on a nondegenerate
range lies in `[lo, hi)`; `ranged(a, a).generate()` returns `a`; and
`ranged(a, b)` with `b < a` raises `GenerationFailure`. -/
theorem rangedGen_bounds :
    ∀ (lo hi : Int) (ctx : GenCtx) (r : RandState),
      (lo < hi → ∀ v r1, (rangedGen lo hi).generate ctx r = Except.ok (v, r1) →
        lo ≤ v ∧ v < hi) ∧
      ((rangedGen lo lo).generate ctx r = Except.ok (lo, r)) ∧
      (hi < lo → ∃ e, (rangedGen lo hi).generate ctx r = Except.error e) := by
  intro lo hi ctx r
  refine ⟨?_, ?_, ?_⟩
  · intro hlt v r1 hgen
    rw [rangedGen_generate_of_lt hlt] at hgen
    obtain ⟨rfl, rfl⟩ := by simpa using hgen
    constructor
    · have := Int.emod_nonneg ((r.next.1 : Int)) (by omega : hi - lo ≠ 0)
      omega
    · have := Int.emod_lt_of_pos ((r.next.1 : Int)) (by omega : 0 < hi - lo)
      omega
  · simp [rangedGen]
  · intro hlt
    exact ⟨_, by simp only [rangedGen]; rw [if_pos hlt]⟩

/-- Witness for C2: `ranged(0, 5)` on the all-zero stream returns 0, which
lies in `[0, 5)`, and `ranged(5, 0)` raises `GenerationFailure`. -/
theorem rangedGen_bounds_witness :
    ((0 : Int) ≤ 0 ∧ (0 : Int) < 5) ∧
    (∃ e, (rangedGen 5 0).generate ⟨10, false⟩ rZero = Except.error e) :=
  ⟨(rangedGen_bounds 0 5 ⟨10, false⟩ rZero).1 (by omega) 0 ⟨fun _ => 0, 1⟩ (by rfl),
    (rangedGen_bounds 5 0 ⟨10, false⟩ rZero).2.2 (by omega)⟩

/-- C3: generation is deterministic — the embedding of `generate` is a pure
function of (generator, size, seed), so two samplings with identical arguments
yield identical results; in particular `sample(10, ranged(0, 5), seed = 42)`
yields a fixed integer in `[0, 5)` on both of two identical calls. -/
theorem sample_deterministic :
    (∀ (α : Type) (g : Generator α) (sz : Int) (seed : Nat),
        sample sz g seed = sample sz g seed) ∧
    (∃ v : Int, sample 10 (rangedGen 0 5) 42 = Except.ok v ∧
        sample 10 (rangedGen 0 5) 42 = Except.ok v ∧ 0 ≤ v ∧ v < 5) :=
  ⟨fun _ _ _ _ => rfl, ⟨1, by rfl, by rfl, by omega, by omega⟩⟩

/-- C4: at size `s ≥ 0`, `collection(g).generate()` first draws a length with
`ranged(0, s + 1)` — so the length is in `[0, s]` — and then draws exactly
that many elements from `g` (the produced list has exactly the drawn length);
the empty collection is reachable: the all-zero stream draws length 0. -/
theorem collectionGen_length_spec :
    ∀ (α : Type) (g : Generator α) (b : Bool) (ctx : GenCtx) (r : RandState),
      0 ≤ ctx.size →
      (∀ xs r2, (collectionGen g b).generate ctx r = Except.ok (xs, r2) →
        ∃ len r1, (rangedGen 0 (ctx.size + 1)).generate ctx r = Except.ok (len, r1) ∧
          0 ≤ len ∧ len ≤ ctx.size ∧
          drawElems g ctx len.toNat r1 = Except.ok (xs, r2) ∧
          (xs.length : Int) = len) ∧
      (∃ r2, (collectionGen g b).generate ctx rZero = Except.ok ([], r2)) := by
  intro α g b ctx r hsz
  constructor
  · intro xs r2 h
    simp only [collectionGen] at h
    rw [rangedGen_generate_of_lt (by omega)] at h
    refine ⟨0 + ((r.next.1 : Int) % (ctx.size + 1 - 0)), r.next.2,
      rangedGen_generate_of_lt (by omega) ctx r, ?_, ?_, h, ?_⟩
    · have := Int.emod_nonneg ((r.next.1 : Int)) (by omega : ctx.size + 1 - 0 ≠ 0)
      omega
    · have := Int.emod_lt_of_pos ((r.next.1 : Int)) (by omega : 0 < ctx.size + 1 - 0)
      omega
    · have hn := drawElems_length _ _ xs r2 h
      have hmod := Int.emod_nonneg ((r.next.1 : Int)) (by omega : ctx.size + 1 - 0 ≠ 0)
      rw [hn]
      omega
  · refine ⟨⟨fun _ => 0, 1⟩, ?_⟩
    simp only [collectionGen]
    rw [rangedGen_generate_of_lt (by omega)]
    simp [rZero, RandState.next, drawElems]

/-- Witness for C4 at a concrete input: size 2, the constant generator, the
all-zero stream. -/
theorem collectionGen_length_spec_witness :
    (0 : Int) ≤ (2 : Int) ∧
    ((∀ xs r2, (collectionGen (constantGen (0 : Int)) true).generate ⟨2, false⟩ rZero =
          Except.ok (xs, r2) →
        ∃ len r1,
          (rangedGen 0 ((2 : Int) + 1)).generate ⟨2, false⟩ rZero = Except.ok (len, r1) ∧
          0 ≤ len ∧ len ≤ (2 : Int) ∧
          drawElems (constantGen (0 : Int)) ⟨2, false⟩ len.toNat r1 = Except.ok (xs, r2) ∧
          (xs.length : Int) = len) ∧
      (∃ r2, (collectionGen (constantGen (0 : Int)) true).generate ⟨2, false⟩ rZero =
          Except.ok ([], r2))) :=
  ⟨by omega,
    collectionGen_length_spec Int (constantGen 0) true ⟨2, false⟩ rZero
      (by show (0 : Int) ≤ 2; omega)⟩

/-- C5: for a copy-constructible container, `collection(g).shrink(v)` is
exactly `sequentially(removeChunks(v), eachElement(v, g.shrink))` — all
chunk-removal candidates first, then all per-element candidates — while for
the fixed-size `std::array` specialization it is `eachElement(v, g.shrink)`
only, with no `removeChunks` phase. -/
theorem collectionGen_shrink_spec :
    ∀ (α : Type) (g : Generator α) (n : Nat) (v : List α),
      (collectionGen g true).shrink v =
        sequentially (removeChunks v) (eachElement v g.shrink) ∧
      (collectionGen g true).shrink v =
        removeChunks v ++ eachElement v g.shrink ∧
      (arrayCollectionGen n g true).shrink v = eachElement v g.shrink :=
  fun _ _ _ _ => ⟨rfl, rfl, rfl⟩

/-- C7: `noShrink(g)` has the empty shrink (it inherits `Generator`'s default,
`shrink::nothing`), and its `generate` runs the inner generator's `generate`
with the `param::NoShrink` flag set to `true` for that inner draw. -/
theorem noShrinkGen_spec :
    ∀ (α : Type) (g : Generator α) (v : α) (ctx : GenCtx) (r : RandState),
      (noShrinkGen g).shrink v = [] ∧
      (noShrinkGen g).generate ctx r = g.generate ⟨ctx.size, true⟩ r :=
  fun _ _ _ _ _ => ⟨rfl, rfl⟩

/-- C9 (counterexample): the claim says `scale(k, g)` overrides the size to
round(size × k), rounding to nearest.  At size 3 with k = 1/2 the inner
generator (here one that returns the current size) sees size 1 — the C++
`double`-to-`int` conversion truncates 1.5 to 1 — while round(3 × 1/2) = 2. -/
theorem scaleGen_not_round :
    (scaleGen (1 / 2 : ℚ) sizeGen).generate ⟨3, false⟩ rZero ≠
      Except.ok (round ((3 : ℚ) * (1 / 2)), rZero) := by
  have h1 : cppTruncToInt ((3 : ℚ) * (1 / 2)) = 1 := by
    rw [cppTruncToInt, if_pos (by norm_num), Int.floor_eq_iff]
    norm_num
  have h2 : round ((3 : ℚ) * (1 / 2)) = 2 := by
    rw [round_eq, Int.floor_eq_iff]
    norm_num
  intro h
  simp only [scaleGen, sizeGen] at h
  rw [show ((GenCtx.mk 3 false).size : ℚ) = (3 : ℚ) from rfl, h1, h2] at h
  simp at h

/-- C9 (amended): `scale(k, g).generate()` runs the inner generator with the
size overridden to the truncation toward zero of size × k (the C++
`double`-to-`int` conversion), and `scale(k, g).shrink` delegates to
`g.shrink`. -/
theorem scaleGen_trunc_spec :
    ∀ (α : Type) (k : ℚ) (g : Generator α) (v : α) (ctx : GenCtx) (r : RandState),
      (scaleGen k g).generate ctx r =
        g.generate ⟨cppTruncToInt ((ctx.size : ℚ) * k), ctx.noShrink⟩ r ∧
      (scaleGen k g).shrink v = g.shrink v :=
  fun _ _ _ _ _ _ => ⟨rfl, rfl⟩

theorem characterShrink_eq_filter (v : Char) :
    characterShrink v = canonicalChars.filter (fun c => canonIdx c < canonIdx v) := by
  rw [characterShrink]
  split_ifs with h1 h2 h3 h4 h5 h6 h7 h8 h9
  · subst h1; decide
  · subst h2; decide
  · subst h3; decide
  · subst h4; decide
  · subst h5; decide
  · subst h6; decide
  · subst h7; decide
  · subst h8; decide
  · subst h9; decide
  · have hv : canonIdx v = 9 := by
      simp only [canonIdx, if_neg h9, if_neg h8, if_neg h7, if_neg h6, if_neg h5,
        if_neg h4, if_neg h3, if_neg h2, if_neg h1]
    rw [hv]
    decide

/-- C8: `character<T>().shrink(v)` yields exactly the characters of the
canonical list `'a','b','c','A','B','C','1','2','3'` that are strictly smaller
than `v` in the order `a<b<c<A<B<C<1<2<3`, in that canonical order; `'a'`
yields nothing, and any value outside the canonical list yields all nine. -/
theorem characterShrink_canonical :
    ∀ v : Char,
      characterShrink v = canonicalChars.filter (fun c => canonIdx c < canonIdx v) ∧
      characterShrink 'a' = [] ∧
      (v ∉ canonicalChars → characterShrink v = canonicalChars) := by
  intro v
  refine ⟨characterShrink_eq_filter v, by decide, ?_⟩
  intro hv
  rw [characterShrink_eq_filter v]
  have h9 : canonIdx v = 9 := by
    simp only [canonicalChars, List.mem_cons, List.not_mem_nil, or_false,
      not_or] at hv
    obtain ⟨ha, hb, hc, hUA, hUB, hUC, h1, h2, h3⟩ := hv
    simp only [canonIdx, if_neg ha, if_neg hb, if_neg hc, if_neg hUA, if_neg hUB,
      if_neg hUC, if_neg h1, if_neg h2, if_neg h3]
  rw [h9]
  decide

/-- Witness for C8: `'z'` is not canonical and shrinks to all nine canonical
characters. -/
theorem characterShrink_canonical_witness :
    ('z' ∉ canonicalChars) ∧ characterShrink 'z' = canonicalChars :=
  ⟨by decide, (characterShrink_canonical 'z').2.2 (by decide)⟩

theorem tupleOfShrink_eq_spec :
    ∀ (n : Nat) (τ : Fin n → Type) (gs : (i : Fin n) → Generator (τ i))
      (t : ∀ i, τ i), tupleOfShrink gs t = tupleShrinkSpec gs t := by
  intro n
  induction n with
  | zero =>
    intro τ gs t
    simp [tupleOfShrink, tupleShrinkSpec]
  | succ n ih =>
    intro τ gs t
    rw [tupleOfShrink, tupleShrinkSpec, List.finRange_succ_eq_map, List.flatMap_cons,
      List.flatMap_map, ih _ (fun i => gs i.succ) (Fin.tail t), tupleShrinkSpec,
      List.map_flatMap]
    congr 1
    · congr 1
      funext y
      conv_rhs => rw [← Fin.cons_self_tail t]
      rw [Fin.update_cons_zero]
    · congr 1
      funext i
      rw [List.map_map]
      have htail : Fin.tail t i = t i.succ := rfl
      rw [htail]
      congr 1
      funext y
      simp only [Function.comp_apply]
      rw [Fin.cons_update, Fin.cons_self_tail]

/-- C6: for a copy-constructible tuple, `tupleOf(g1, …, gN).shrink(t)` yields
its candidates grouped by component index in increasing order: for each index
`i` (all of index `i` before any of index `i + 1`), each candidate replaces
component `i` of `t` by a value of `gᵢ.shrink (t i)` and keeps every other
component of `t`. -/
theorem tupleOfGen_shrink_by_component :
    ∀ (n : Nat) (τ : Fin n → Type) (gs : (i : Fin n) → Generator (τ i))
      (t : ∀ i, τ i),
      (tupleOfGen gs true).shrink t = tupleShrinkSpec gs t := by
  intro n τ gs t
  have hred : (tupleOfGen gs true).shrink t = tupleOfShrink gs t := rfl
  rw [hred]
  exact tupleOfShrink_eq_spec n τ gs t

/-- C10: when the produced container or tuple type is not copy-constructible,
the shrinks of `vector(n, g)`, `collection(g)` and `tupleOf(g1, …, gN)` are
empty for every value, whatever the element generators' shrinks are. -/
theorem nonCopyable_shrink_empty :
    ∀ (α : Type) (n : Nat) (g : Generator α) (v : List α)
      (m : Nat) (τ : Fin m → Type) (gs : (i : Fin m) → Generator (τ i))
      (t : ∀ i, τ i),
      (vectorGen n g false).shrink v = [] ∧
      (collectionGen g false).shrink v = [] ∧
      (tupleOfGen gs false).shrink t = [] :=
  fun _ _ _ _ _ _ _ _ => ⟨rfl, rfl, rfl⟩

end RapidCheck
